import Mathlib

/-!
Shallow embedding of imgmatch.py (classes ImageDescriptor, DatabaseBuilder
and Matcher) and a verification of the specified properties of its
matching/scoring pipeline.

Modelling conventions:
* descriptor vectors are lists of rationals (the source holds float32 rows);
* the external OpenCV capabilities (image decode/resize, SURF detection,
  descriptor computation, the cv2.KNearest 1-nearest-neighbour index) are
  modelled from the specification of the external-capability boundary: the
  index stores a reference sample set and a lookup returns the distance to
  the nearest sample, with no neighbour available on an empty index;
* the distance function used by the index is a parameter of the embedding
  (the source calls an opaque library object); the specification pins it to
  the Euclidean distance, so the claim theorems instantiate it with
  fun v w => Real.sqrt (edistSq v w);
* fallible steps (image load, numpy reshape, reading a persisted entry,
  reading an unbound Python name) are modelled with Except;
* a lazy generator that may raise mid-iteration is modelled as the pair of
  the list of items yielded before the failure and an optional error.
-/

/-- Descriptor vectors: one row of the numpy descriptor array. -/
abbrev Vec := List ℚ

/-- Extensions of file types supported by opencv (ImageDescriptor.SUPPORTED_EXTS). -/
def SUPPORTED_EXTS : List String :=
  [".bmp", ".dib", ".jpeg", ".jpg", ".jpe", ".jp2", ".png", ".pbm", ".pgm",
   ".ppm", ".sr", ".ras", ".tiff", ".tif"]

/-- Index of the last occurrence of the dot character in a character list,
used to model Python os.path.splitext. -/
def lastDotIdx : List Char → Option Nat
  | [] => none
  | c :: cs =>
    match lastDotIdx cs with
    | some i => some (i + 1)
    | none => if c = '.' then some 0 else none

/-- Python os.path.splitext restricted to bare filenames (no directory
separators, which is how the source applies it): the extension starts at the
last dot, provided at least one earlier character of the name is not a dot
(so a leading run of dots, as in a hidden file, yields no extension). -/
def splitext (p : String) : String × String :=
  match lastDotIdx p.toList with
  | none => (p, "")
  | some i =>
    if (p.toList.take i).any (fun c => c != '.') then
      (String.mk (p.toList.take i), String.mk (p.toList.drop i))
    else (p, "")

/-- Eligibility test inside DatabaseBuilder.build: the filename must not start
with an underscore and its extension must be in SUPPORTED_EXTS.  An empty
filename (impossible for a real directory entry) is treated as ineligible. -/
def eligibleFile (file : String) : Bool :=
  (file.toList.headD '_' != '_') && SUPPORTED_EXTS.contains (splitext file).2

/-- Python local-name resolution: reading a name that is not bound in the
environment raises a NameError. -/
def pyLookup (env : List (String × String)) (x : String) : Except String String :=
  match env.find? (fun p => p.1 == x) with
  | some p => Except.ok p.2
  | none => Except.error ("NameError: name " ++ x ++ " is not defined")

/-- One iteration of the loop body of DatabaseBuilder.build for an eligible
file.  The source binds the locals inPath and outPath, but both the
extraction call (descriptors = self.imageDescriptor.getDescriptors(path)) and
the save call (np.save(path, descriptors)) read the name path, which is never
assigned anywhere in the module, so the iteration raises a NameError before
anything is persisted. -/
def DatabaseBuilder.buildFile (inputFolder outputFolder file : String) :
    Except String String := do
  let env : List (String × String) :=
    [("file", file), ("inPath", inputFolder ++ "/" ++ file)]
  let _ ← pyLookup env "path"
  let env2 : List (String × String) :=
    ("outPath", outputFolder ++ "/" ++ file) :: env
  let saved ← pyLookup env2 "path"
  pure saved

/-- DatabaseBuilder.build over the list of files produced by the directory
walk: every file passing eligibleFile runs the loop body; the result collects
the names the body persisted, or propagates the first error raised. -/
def DatabaseBuilder.build (inputFolder outputFolder : String)
    (files : List String) : Except String (List String) :=
  files.foldlM (fun acc file =>
    if eligibleFile file then
      (DatabaseBuilder.buildFile inputFolder outputFolder file).map
        (fun saved => acc ++ [saved])
    else pure acc) []

/-- Decoded image, reduced to the data the embedded code inspects: its
height (shape[0]) and width (shape[1]). -/
structure Image where
  height : Nat
  width : Nat
deriving DecidableEq

/-- Python 2 round for the non-negative arguments arising here: round half
away from zero, i.e. the floor of q + 1/2. -/
def pyRound (q : ℚ) : ℤ := ⌊q + 1 / 2⌋

/-- ImageDescriptor._load.  cv2.imread yields none for a missing or
undecodable path (the subsequent attribute access fails); the scale factor is
size / max(shape[0], shape[1]) (a zero-sized image raises, as division by
zero); newsize = (round(height * factor), round(width * factor)) is passed to
cv2.resize as its dsize argument, whose components are (width, height) - so
the resized image has width = round(height * factor) and
height = round(width * factor).  The grayscale conversion does not change the
dimensions and is not modelled further. -/
def ImageDescriptor._load (size : ℚ) (img? : Option Image) :
    Except String Image :=
  match img? with
  | none => Except.error "LoadError"
  | some img =>
    if max img.height img.width = 0 then Except.error "ZeroDivisionError"
    else
      let factor : ℚ := size / (max img.height img.width : ℚ)
      let newsize0 : ℤ := pyRound ((img.height : ℚ) * factor)
      let newsize1 : ℤ := pyRound ((img.width : ℚ) * factor)
      Except.ok { width := newsize0.toNat, height := newsize1.toNat }

/-- ImageDescriptor.getDescriptors.  The external SURF capability is modelled
from the spec: detect returns the keypoints found in the (loaded and resized)
image, and the descriptor computer produces one fixed-dimension vector per
keypoint; an image with zero detected keypoints therefore yields the empty
collection. -/
def ImageDescriptor.getDescriptors {Kp : Type} (size : ℚ)
    (imread : String → Option Image) (detect : Image → List Kp)
    (descOf : Kp → Vec) (imgpath : String) : Except String (List Vec) := do
  let img ← ImageDescriptor._load size (imread imgpath)
  let keypoints := detect img
  pure (keypoints.map descOf)

/-- Training state of the external cv2.KNearest index: the sample rows it was
trained on and the response labels np.arange(len(descriptors)). -/
structure Knn where
  samples : List Vec
  responses : List ℚ

/-- Matcher._getKnn: trains the 1-nearest-neighbour index on the given
descriptor rows, with responses 0, 1, ... as in the source. -/
def Matcher._getKnn (descriptors : List Vec) : Knn :=
  { samples := descriptors
    responses := (List.range descriptors.length).map (fun n => (n : ℚ)) }

/-- Modelled from the spec: the external 1-nearest-neighbour lookup
(knn.find_nearest(des, 1)): the distance from des to its nearest training
sample under the given distance function, none when the index holds no
samples (the spec requires the empty reference index to produce no
neighbours rather than fail). -/
def Matcher.findNearest {α : Type} [LinearOrder α] (dist : Vec → Vec → α)
    (knn : Knn) (des : Vec) : Option α :=
  match knn.samples with
  | [] => none
  | s :: ss => some (ss.foldl (fun acc w => min acc (dist w des)) (dist s des))

/-- One iteration of the scoring loop of Matcher._match: the row is reshaped
to (1, 128) (an error for any other row length, as in numpy), its nearest
neighbour distance in the index is taken, and the score grows by
(distanceThreshold - dist) exactly when dist < distanceThreshold. -/
def Matcher.matchStep {α : Type} [LinearOrderedField α] (t : α)
    (dist : Vec → Vec → α) (knn : Knn) (score : α) (des : Vec) :
    Except String α :=
  if des.length = 128 then
    match Matcher.findNearest dist knn des with
    | none => Except.ok score
    | some d => if d < t then Except.ok (score + (t - d)) else Except.ok score
  else Except.error "ValueError"

/-- Matcher._match: fold the scoring step over the rows of one persisted
descriptor collection, starting from score 0. -/
def Matcher._match {α : Type} [LinearOrderedField α] (t : α)
    (dist : Vec → Vec → α) (knn : Knn) (descriptors : List Vec) :
    Except String α :=
  descriptors.foldlM (Matcher.matchStep t dist knn) 0

/-- The generator loop of Matcher.match over the walked catalog files: files
whose extension is .npy are loaded and scored; the generator yields
(filename, score) pairs until the first error, which aborts it.  The result
is the list of pairs yielded before any failure together with the error, if
one was raised. -/
def Matcher.matchGo {α : Type} [LinearOrderedField α] (t : α)
    (dist : Vec → Vec → α) (knn : Knn)
    (load : String → Except String (List Vec)) :
    List String → List (String × α) × Option String
  | [] => ([], none)
  | file :: rest =>
    if (splitext file).2 = ".npy" then
      match load file with
      | Except.error e => ([], some e)
      | Except.ok dbfile =>
        match Matcher._match t dist knn dbfile with
        | Except.error e => ([], some e)
        | Except.ok s =>
          let r := Matcher.matchGo t dist knn load rest
          ((file, s) :: r.1, r.2)
    else Matcher.matchGo t dist knn load rest

/-- Matcher.match, with the query descriptor extraction (handled by
ImageDescriptor.getDescriptors) already performed: trains the index on the
query collection via Matcher._getKnn and iterates the catalog files. -/
def Matcher.matchAll {α : Type} [LinearOrderedField α] (t : α)
    (dist : Vec → Vec → α) (load : String → Except String (List Vec))
    (queryDescriptors : List Vec) (files : List String) :
    List (String × α) × Option String :=
  Matcher.matchGo t dist (Matcher._getKnn queryDescriptors) load files

/-- The contribution of a single catalog row to the score of Matcher._match:
(t - d) when its nearest-neighbour distance d in the index exists and is
below t, and 0 otherwise. -/
def Matcher.contrib {α : Type} [LinearOrderedField α] (t : α)
    (dist : Vec → Vec → α) (knn : Knn) (v : Vec) : α :=
  match Matcher.findNearest dist knn v with
  | none => 0
  | some d => if d < t then t - d else 0

/-- Squared Euclidean distance between two descriptor rows; the Euclidean
distance of the spec is Real.sqrt of this value. -/
def edistSq (v w : Vec) : ℚ :=
  (List.zipWith (fun a b => (a - b) ^ 2) v w).sum

/-- Spec-side restatement of one catalog entry score, written from the words
of spec section 4.3: the query descriptors are the reference set; every
vector v of the entry collection D finds its nearest neighbour among the
query vectors at distance d and contributes (t - d) when d < t and nothing
otherwise; the score is the sum of the contributions. -/
def specEntryScore {α : Type} [LinearOrderedField α] (t : α)
    (dist : Vec → Vec → α) (query D : List Vec) : α :=
  (D.map (fun v =>
    match (query.map (fun w => dist w v)).min? with
    | none => 0
    | some d => if d < t then t - d else 0)).sum

/-- The all-zero 128-dimensional descriptor row, used as a concrete input. -/
def vZero : Vec := List.replicate 128 0

/-- Concrete catalog loader for which exactly the entry bad.npy fails to
read. -/
def loadBad : String → Except String (List Vec) := fun f =>
  if f = "bad.npy" then Except.error "CatalogIOError" else Except.ok []

/-- Bind on Except applied to a success value reduces to the continuation. -/
theorem exceptOkBind {ε α β : Type} (x : α) (f : α → Except ε β) :
    (Except.ok x : Except ε α) >>= f = f x := rfl

/-- On a well-formed collection (every row of dimension 128) the scoring step
never fails, and one step adds exactly the contribution of the row. -/
theorem Matcher.matchStep_ok {α : Type} [LinearOrderedField α] (t : α)
    (dist : Vec → Vec → α) (knn : Knn) (s : α) (v : Vec)
    (hv : v.length = 128) :
    Matcher.matchStep t dist knn s v
      = Except.ok (s + Matcher.contrib t dist knn v) := by
  unfold Matcher.matchStep Matcher.contrib
  rw [if_pos hv]
  cases Matcher.findNearest dist knn v with
  | none => simp
  | some d =>
    by_cases hd : d < t
    · simp [hd]
    · simp [hd]

/-- Folding the scoring step over a well-formed collection accumulates the
sum of the per-row contributions. -/
theorem Matcher.foldlM_matchStep_eq_sum {α : Type} [LinearOrderedField α]
    (t : α) (dist : Vec → Vec → α) (knn : Knn) (D : List Vec)
    (hD : ∀ v ∈ D, v.length = 128) (s : α) :
    D.foldlM (Matcher.matchStep t dist knn) s
      = Except.ok (s + (D.map (Matcher.contrib t dist knn)).sum) := by
  induction D generalizing s with
  | nil => simp only [List.foldlM_nil, List.map_nil, List.sum_nil, add_zero]; rfl
  | cons v D ih =>
    have hv : v.length = 128 := hD v (List.mem_cons_self _ _)
    rw [List.foldlM_cons, Matcher.matchStep_ok t dist knn s v hv, exceptOkBind,
      ih (fun w hw => hD w (List.mem_cons_of_mem _ hw))]
    rw [List.map_cons, List.sum_cons, add_assoc]

/-- Matcher._match on a well-formed collection succeeds with the sum of the
per-row contributions. -/
theorem Matcher.match_eq_sum {α : Type} [LinearOrderedField α]
    (t : α) (dist : Vec → Vec → α) (knn : Knn) (D : List Vec)
    (hD : ∀ v ∈ D, v.length = 128) :
    Matcher._match t dist knn D
      = Except.ok ((D.map (Matcher.contrib t dist knn)).sum) := by
  unfold Matcher._match
  rw [Matcher.foldlM_matchStep_eq_sum t dist knn D hD 0, zero_add]

/-- The modelled nearest-neighbour lookup computes the minimum of the
distances from the probe row to the training samples. -/
theorem Matcher.findNearest_eq_min {α : Type} [LinearOrder α]
    (dist : Vec → Vec → α) (knn : Knn) (v : Vec) :
    Matcher.findNearest dist knn v
      = (knn.samples.map (fun w => dist w v)).min? := by
  unfold Matcher.findNearest
  cases knn.samples with
  | nil => rfl
  | cons s ss => rw [List.map_cons, List.min?_cons', List.foldl_map]

/-- Each per-row contribution to the score is non-negative, whatever the
distance function returns. -/
theorem Matcher.contrib_nonneg {α : Type} [LinearOrderedField α] (t : α)
    (dist : Vec → Vec → α) (knn : Knn) (v : Vec) :
    0 ≤ Matcher.contrib t dist knn v := by
  unfold Matcher.contrib
  cases Matcher.findNearest dist knn v with
  | none => exact le_refl 0
  | some d =>
    show 0 ≤ if d < t then t - d else 0
    by_cases hd : d < t
    · rw [if_pos hd]
      exact sub_nonneg.mpr hd.le
    · rw [if_neg hd]

/-- A nearest-neighbour distance returned by the index is non-negative as
soon as the distance function is. -/
theorem Matcher.findNearest_nonneg {α : Type} [LinearOrderedField α]
    (dist : Vec → Vec → α) (hd : ∀ w v, 0 ≤ dist w v) (knn : Knn) (v : Vec)
    (d : α) (h : Matcher.findNearest dist knn v = some d) : 0 ≤ d := by
  unfold Matcher.findNearest at h
  cases hs : knn.samples with
  | nil => rw [hs] at h; cases h
  | cons s ss =>
    rw [hs] at h
    have haux : ∀ (l : List Vec) (a : α), 0 ≤ a →
        0 ≤ l.foldl (fun acc w => min acc (dist w v)) a := by
      intro l
      induction l with
      | nil => intro a ha; exact ha
      | cons w l ih =>
        intro a ha
        exact ih _ (le_min ha (hd w v))
    have := haux ss (dist s v) (hd s v)
    cases h
    exact this

/-- Folding the scoring step preserves non-negativity of the accumulator. -/
theorem Matcher.foldlM_matchStep_nonneg {α : Type} [LinearOrderedField α]
    (t : α) (dist : Vec → Vec → α) (knn : Knn) (D : List Vec) :
    ∀ s0 s : α, 0 ≤ s0 →
      D.foldlM (Matcher.matchStep t dist knn) s0 = Except.ok s → 0 ≤ s := by
  induction D with
  | nil =>
    intro s0 s h0 h
    rw [List.foldlM_nil] at h
    have h' : Except.ok (ε := String) s0 = Except.ok s := h
    cases h'
    exact h0
  | cons v D ih =>
    intro s0 s h0 h
    rw [List.foldlM_cons] at h
    by_cases hv : v.length = 128
    · rw [Matcher.matchStep_ok t dist knn s0 v hv, exceptOkBind] at h
      exact ih _ s (add_nonneg h0 (Matcher.contrib_nonneg t dist knn v)) h
    · unfold Matcher.matchStep at h
      rw [if_neg hv] at h
      cases h

/-- The squared Euclidean distance from a row to itself is zero. -/
theorem edistSq_self (v : Vec) : edistSq v v = 0 := by
  unfold edistSq
  induction v with
  | nil => rfl
  | cons a v ih =>
    rw [List.zipWith_cons_cons, List.sum_cons]
    rw [show ((a - a : ℚ)) ^ 2 = 0 by simp, zero_add]
    exact ih

/-- With an index trained on an empty query collection, every lookup finds no
neighbour, so a well-formed catalog entry scores 0. -/
theorem Matcher.match_empty_query {α : Type} [LinearOrderedField α] (t : α)
    (dist : Vec → Vec → α) (D : List Vec) (hD : ∀ v ∈ D, v.length = 128) :
    Matcher._match t dist (Matcher._getKnn []) D = Except.ok 0 := by
  rw [Matcher.match_eq_sum t dist _ D hD]
  congr 1
  apply List.sum_eq_zero
  intro x hx
  obtain ⟨v, hv, hx⟩ := List.mem_map.mp hx
  rw [← hx]
  rfl

/-- C1: for every catalog entry with persisted descriptor collection D, the
score emitted by Matcher._match equals the sum, over every vector v in D, of
(distanceThreshold - dist) for exactly those v whose Euclidean
nearest-neighbour distance dist in the query's reference index satisfies
dist < distanceThreshold; vectors with dist at or above the threshold
contribute nothing. -/
theorem c1_score_is_gated_sum (t : ℝ) (q D : List Vec)
    (hD : ∀ v ∈ D, v.length = 128) :
    Matcher._match t (fun v w => Real.sqrt (edistSq v w)) (Matcher._getKnn q) D
      = Except.ok ((D.map (fun v =>
          match Matcher.findNearest (fun v w => Real.sqrt (edistSq v w))
              (Matcher._getKnn q) v with
          | none => 0
          | some d => if d < t then t - d else 0)).sum) := by
  rw [Matcher.match_eq_sum t _ _ D hD]
  congr 1
  congr 1
  apply List.map_congr_left
  intro v hv
  unfold Matcher.contrib
  cases Matcher.findNearest (fun v w => Real.sqrt (edistSq v w))
      (Matcher._getKnn q) v with
  | none => rfl
  | some d => rfl

/-- Concrete instance of c1_score_is_gated_sum. -/
theorem c1_score_is_gated_sum_witness :
    Matcher._match (1 : ℝ) (fun v w => Real.sqrt (edistSq v w))
        (Matcher._getKnn [vZero]) [vZero]
      = Except.ok (([vZero].map (fun v =>
          match Matcher.findNearest (fun v w => Real.sqrt (edistSq v w))
              (Matcher._getKnn [vZero]) v with
          | none => 0
          | some d => if d < (1 : ℝ) then 1 - d else 0)).sum) :=
  c1_score_is_gated_sum 1 [vZero] [vZero] (by
    intro v hv
    rw [List.mem_singleton.mp hv]
    simp [vZero])

/-- The contribution of a row matched against the index trained on a single
identical row: the nearest-neighbour distance is 0, so it contributes the
full threshold 1. -/
theorem Matcher.contrib_single_self :
    Matcher.contrib (1 : ℝ) (fun v w => Real.sqrt (edistSq v w))
      (Matcher._getKnn [vZero]) vZero = 1 := by
  unfold Matcher.contrib
  rw [show Matcher.findNearest (fun v w => Real.sqrt (edistSq v w))
      (Matcher._getKnn [vZero]) vZero
      = some (Real.sqrt ((edistSq vZero vZero : ℚ) : ℝ)) from rfl]
  rw [edistSq_self]
  rw [show ((0 : ℚ) : ℝ) = 0 from Rat.cast_zero, Real.sqrt_zero]
  show (if (0 : ℝ) < 1 then 1 - 0 else 0) = 1
  rw [if_pos (by norm_num)]
  norm_num

/-- The contribution of a row matched against the index trained on two copies
of the identical row: the nearest-neighbour distance is again 0. -/
theorem Matcher.contrib_double_self :
    Matcher.contrib (1 : ℝ) (fun v w => Real.sqrt (edistSq v w))
      (Matcher._getKnn [vZero, vZero]) vZero = 1 := by
  unfold Matcher.contrib
  rw [show Matcher.findNearest (fun v w => Real.sqrt (edistSq v w))
      (Matcher._getKnn [vZero, vZero]) vZero
      = some (min (Real.sqrt ((edistSq vZero vZero : ℚ) : ℝ))
          (Real.sqrt ((edistSq vZero vZero : ℚ) : ℝ))) from rfl]
  rw [edistSq_self]
  rw [show ((0 : ℚ) : ℝ) = 0 from Rat.cast_zero, Real.sqrt_zero, min_self]
  show (if (0 : ℝ) < 1 then 1 - 0 else 0) = 1
  rw [if_pos (by norm_num)]
  norm_num

/-- Every row of the all-zero collections has dimension 128. -/
theorem vZero_wellFormed : ∀ v ∈ [vZero, vZero], List.length v = 128 := by
  intro v hv
  rcases List.mem_cons.mp hv with h | h
  · rw [h]; simp [vZero]
  · rw [List.mem_singleton.mp h]; simp [vZero]

/-- C2: in match, the 1-nearest-neighbour index is built over the query
image's own descriptor vectors (the query descriptors are the reference set
of the index) and each catalog entry's vectors are looked up against that
index, so the emitted score is exactly the spec-side score whose reference
set is the query; the direction is observable: swapping the roles of the
query and the entry can change the score. -/
theorem c2_query_is_reference_set (t : ℝ) (q D : List Vec)
    (hD : ∀ v ∈ D, v.length = 128) :
    (Matcher._getKnn q).samples = q ∧
    Matcher._match t (fun v w => Real.sqrt (edistSq v w)) (Matcher._getKnn q) D
      = Except.ok (specEntryScore t (fun v w => Real.sqrt (edistSq v w)) q D) ∧
    ∃ t0 : ℝ, ∃ q0 D0 : List Vec,
      Matcher._match t0 (fun v w => Real.sqrt (edistSq v w))
          (Matcher._getKnn q0) D0
        ≠ Matcher._match t0 (fun v w => Real.sqrt (edistSq v w))
          (Matcher._getKnn D0) q0 := by
  refine ⟨rfl, ?_, ?_⟩
  · rw [Matcher.match_eq_sum t _ _ D hD]
    unfold specEntryScore
    congr 1
    congr 1
    apply List.map_congr_left
    intro v hv
    unfold Matcher.contrib
    rw [Matcher.findNearest_eq_min]
    rw [show (Matcher._getKnn q).samples = q from rfl]
  · refine ⟨1, [vZero], [vZero, vZero], ?_⟩
    have hA : Matcher._match (1 : ℝ) (fun v w => Real.sqrt (edistSq v w))
        (Matcher._getKnn [vZero]) [vZero, vZero] = Except.ok 2 := by
      rw [Matcher.match_eq_sum 1 _ _ _ vZero_wellFormed]
      rw [List.map_cons, List.map_cons, List.map_nil,
        Matcher.contrib_single_self, List.sum_cons, List.sum_cons,
        List.sum_nil]
      norm_num
    have hB : Matcher._match (1 : ℝ) (fun v w => Real.sqrt (edistSq v w))
        (Matcher._getKnn [vZero, vZero]) [vZero] = Except.ok 1 := by
      rw [Matcher.match_eq_sum 1 _ _ _ (by
        intro v hv
        rw [List.mem_singleton.mp hv]
        simp [vZero])]
      rw [List.map_cons, List.map_nil, Matcher.contrib_double_self,
        List.sum_cons, List.sum_nil]
      norm_num
    rw [hA, hB]
    intro hcontra
    have h21 : (2 : ℝ) = 1 := Except.ok.inj hcontra
    norm_num at h21

/-- Concrete instance of c2_query_is_reference_set. -/
theorem c2_query_is_reference_set_witness :
    (Matcher._getKnn [vZero]).samples = [vZero] ∧
    Matcher._match (1 : ℝ) (fun v w => Real.sqrt (edistSq v w))
        (Matcher._getKnn [vZero]) [vZero]
      = Except.ok (specEntryScore (1 : ℝ) (fun v w => Real.sqrt (edistSq v w))
          [vZero] [vZero]) ∧
    ∃ t0 : ℝ, ∃ q0 D0 : List Vec,
      Matcher._match t0 (fun v w => Real.sqrt (edistSq v w))
          (Matcher._getKnn q0) D0
        ≠ Matcher._match t0 (fun v w => Real.sqrt (edistSq v w))
          (Matcher._getKnn D0) q0 :=
  c2_query_is_reference_set 1 [vZero] [vZero] (by
    intro v hv
    rw [List.mem_singleton.mp hv]
    simp [vZero])

/-- C4: if the query image's descriptor collection is empty, match does not
fail and emits a score of 0 for every (well-formed, persisted) catalog
entry: the reference index holds no samples, so no vector finds a
neighbour. -/
theorem c4_empty_query_scores_zero (t : ℝ)
    (load : String → Except String (List Vec)) (files : List String)
    (h : ∀ f ∈ files, (splitext f).2 = ".npy" →
        ∃ D, load f = Except.ok D ∧ ∀ v ∈ D, v.length = 128) :
    Matcher.matchAll t (fun v w => Real.sqrt (edistSq v w)) load [] files
      = ((files.filter (fun f => (splitext f).2 == ".npy")).map
          (fun f => (f, (0 : ℝ))), none) := by
  unfold Matcher.matchAll
  induction files with
  | nil => rfl
  | cons f files ih =>
    by_cases hf : (splitext f).2 = ".npy"
    · obtain ⟨D, hl, hD⟩ := h f (List.mem_cons_self _ _) hf
      simp only [Matcher.matchGo, if_pos hf, hl,
        Matcher.match_empty_query t (fun v w => Real.sqrt (edistSq v w)) D hD,
        ih (fun g hg => h g (List.mem_cons_of_mem _ hg))]
      simp [List.filter_cons, beq_iff_eq, hf]
    · simp only [Matcher.matchGo, if_neg hf,
        ih (fun g hg => h g (List.mem_cons_of_mem _ hg))]
      simp [List.filter_cons, beq_iff_eq, hf]

/-- Concrete instance of c4_empty_query_scores_zero. -/
theorem c4_empty_query_scores_zero_witness :
    Matcher.matchAll (1 : ℝ) (fun v w => Real.sqrt (edistSq v w))
        (fun _ => Except.ok []) [] ["a.npy", "b.txt"]
      = ((["a.npy", "b.txt"].filter
            (fun f => (splitext f).2 == ".npy")).map
          (fun f => (f, (0 : ℝ))), none) :=
  c4_empty_query_scores_zero 1 (fun _ => Except.ok []) ["a.npy", "b.txt"]
    (by
      intro f hf hnpy
      exact ⟨[], rfl, by intro v hv; cases hv⟩)

/-- C9: every (name, score) pair emitted by match carries a non-negative
score, for every catalog, every query collection and any distance function
the external index might use. -/
theorem c9_emitted_scores_nonneg {α : Type} [LinearOrderedField α] (t : α)
    (dist : Vec → Vec → α) (load : String → Except String (List Vec))
    (q : List Vec) (files : List String) :
    ∀ p ∈ (Matcher.matchAll t dist load q files).1, 0 ≤ p.2 := by
  unfold Matcher.matchAll
  induction files with
  | nil => intro p hp; cases hp
  | cons f files ih =>
    intro p hp
    by_cases hf : (splitext f).2 = ".npy"
    · simp only [Matcher.matchGo, if_pos hf] at hp
      cases hl : load f with
      | error e => rw [hl] at hp; cases hp
      | ok D =>
        simp only [hl] at hp
        cases hm : Matcher._match t dist (Matcher._getKnn q) D with
        | error e => rw [hm] at hp; cases hp
        | ok s =>
          rw [hm] at hp
          replace hp : p = (f, s) ∨
              p ∈ (Matcher.matchGo t dist (Matcher._getKnn q) load files).1 :=
            List.mem_cons.mp hp
          rcases hp with rfl | hmem
          · exact Matcher.foldlM_matchStep_nonneg t dist (Matcher._getKnn q)
              D 0 s le_rfl hm
          · exact ih p hmem
    · simp only [Matcher.matchGo, if_neg hf] at hp
      exact ih p hp

/-- Concrete instance of c9_emitted_scores_nonneg. -/
theorem c9_emitted_scores_nonneg_witness :
    (0 : ℚ) ≤ (("a.npy", (0 : ℚ)) : String × ℚ).2 :=
  c9_emitted_scores_nonneg (1 : ℚ) (fun _ _ => 0) (fun _ => Except.ok [])
    [] ["a.npy"] ("a.npy", 0) (by
      rw [show (Matcher.matchAll (1 : ℚ) (fun _ _ => 0)
          (fun _ => Except.ok []) [] ["a.npy"]).1
          = [("a.npy", (0 : ℚ))] from rfl]
      exact List.mem_singleton.mpr rfl)

/-- C10: when enumerating the catalog directory, match selects files solely
by the .npy extension - in particular the underscore exclusion marker of the
builder is not consulted - and each emitted pair's name is the stored
filename itself, still carrying its .npy suffix. -/
theorem c10_selects_by_npy_only {α : Type} [LinearOrderedField α] (t : α)
    (dist : Vec → Vec → α) (load : String → Except String (List Vec))
    (q : List Vec) (files : List String)
    (h : ∀ f ∈ files, (splitext f).2 = ".npy" →
        ∃ D s, load f = Except.ok D ∧
          Matcher._match t dist (Matcher._getKnn q) D = Except.ok s) :
    (Matcher.matchAll t dist load q files).1.map Prod.fst
      = files.filter (fun f => (splitext f).2 == ".npy") := by
  unfold Matcher.matchAll
  induction files with
  | nil => rfl
  | cons f files ih =>
    by_cases hf : (splitext f).2 = ".npy"
    · obtain ⟨D, s, hl, hm⟩ := h f (List.mem_cons_self _ _) hf
      simp only [Matcher.matchGo, if_pos hf, hl, hm, List.map_cons,
        ih (fun g hg hn => h g (List.mem_cons_of_mem _ hg) hn)]
      simp [List.filter_cons, beq_iff_eq, hf]
    · simp only [Matcher.matchGo, if_neg hf,
        ih (fun g hg hn => h g (List.mem_cons_of_mem _ hg) hn)]
      simp [List.filter_cons, beq_iff_eq, hf]

/-- Concrete instance of c10_selects_by_npy_only: the underscore-prefixed
entry _u.npy is still enumerated and scored, and names keep the .npy
suffix. -/
theorem c10_selects_by_npy_only_witness :
    (Matcher.matchAll (1 : ℚ) (fun _ _ => 0) (fun _ => Except.ok []) []
        ["_u.npy", "b.npy", "c.png"]).1.map Prod.fst
      = ["_u.npy", "b.npy"] :=
  (c10_selects_by_npy_only (1 : ℚ) (fun _ _ => 0) (fun _ => Except.ok [])
    [] ["_u.npy", "b.npy", "c.png"]
    (by intro f hf hnpy; exact ⟨[], 0, rfl, rfl⟩)).trans (by decide)

/-- C8: with distanceThreshold = 0, match emits a score of 0 for every
catalog entry regardless of descriptor content and raises no error: a
Euclidean nearest-neighbour distance is never negative, so no vector falls
strictly below the zero threshold. -/
theorem c8_zero_threshold_scores_zero (q D : List Vec)
    (hD : ∀ v ∈ D, v.length = 128) :
    Matcher._match (0 : ℝ) (fun v w => Real.sqrt (edistSq v w))
        (Matcher._getKnn q) D = Except.ok 0 := by
  rw [Matcher.match_eq_sum 0 _ _ D hD]
  congr 1
  apply List.sum_eq_zero
  intro x hx
  obtain ⟨v, hv, hx⟩ := List.mem_map.mp hx
  rw [← hx]
  unfold Matcher.contrib
  cases hfn : Matcher.findNearest (fun v w => Real.sqrt (edistSq v w))
      (Matcher._getKnn q) v with
  | none => rfl
  | some d =>
    have hd : 0 ≤ d := Matcher.findNearest_nonneg _
      (fun w v => Real.sqrt_nonneg _) _ v d hfn
    show (if d < 0 then 0 - d else 0) = 0
    rw [if_neg (not_lt.mpr hd)]

/-- Concrete instance of c8_zero_threshold_scores_zero. -/
theorem c8_zero_threshold_scores_zero_witness :
    Matcher._match (0 : ℝ) (fun v w => Real.sqrt (edistSq v w))
        (Matcher._getKnn [vZero]) [vZero] = Except.ok 0 :=
  c8_zero_threshold_scores_zero [vZero] [vZero] (by
    intro v hv
    rw [List.mem_singleton.mp hv]
    simp [vZero])

/-- C3 (code bug): on a directory holding exactly a.png, b.png, _skip.png
and c.txt, the eligibility filter of DatabaseBuilder.build selects exactly
a.png and b.png - the underscore-prefixed file and the unsupported extension
are excluded - but the loop body then reads the unbound Python name path, so
build raises a NameError at the first eligible file and persists nothing. -/
theorem c3_build_raises_nameerror :
    ["a.png", "b.png", "_skip.png", "c.txt"].filter eligibleFile
      = ["a.png", "b.png"] ∧
    DatabaseBuilder.build "input" "output"
        ["a.png", "b.png", "_skip.png", "c.txt"]
      = Except.error "NameError: name path is not defined" :=
  ⟨by decide, rfl⟩

/-- C5 (code bug): loading a 100 x 200 image with targetSize 300 yields a
resized image of height 300 and width 150.  The longer side is indeed 300,
but the aspect ratio is inverted (the original is 1:2, the result 2:1,
witnessed by 300 * 200 being different from 100 * 150), because newsize is
computed as (round(height * factor), round(width * factor)) and handed to
the resize facility whose size argument is read as (width, height). -/
theorem c5_resize_swaps_dimensions :
    ImageDescriptor._load 300 (some ⟨100, 200⟩) = Except.ok ⟨300, 150⟩ ∧
    (300 : ℚ) * 200 ≠ 100 * 150 := by
  constructor
  · unfold ImageDescriptor._load pyRound
    norm_num
    exact ⟨rfl, rfl⟩
  · norm_num

/-- C6: extraction succeeds on any decodable, non-degenerate image, and an
image in which the detector finds zero keypoints yields the empty descriptor
collection rather than an error. -/
theorem c6_zero_keypoints_empty_collection {Kp : Type} (size : ℚ)
    (imread : String → Option Image) (detect : Image → List Kp)
    (descOf : Kp → Vec) (imgpath : String) (img : Image)
    (h1 : imread imgpath = some img) (h2 : ¬ max img.height img.width = 0)
    (h3 : ∀ i : Image, detect i = []) :
    ImageDescriptor.getDescriptors size imread detect descOf imgpath
      = Except.ok [] := by
  unfold ImageDescriptor.getDescriptors ImageDescriptor._load
  rw [h1]
  simp only [if_neg h2]
  rw [exceptOkBind]
  rw [h3]
  rfl

/-- Concrete instance of c6_zero_keypoints_empty_collection. -/
theorem c6_zero_keypoints_empty_collection_witness :
    ImageDescriptor.getDescriptors 300 (fun _ => some ⟨10, 10⟩)
        (fun _ => ([] : List Unit)) (fun _ => ([] : Vec)) "query.png"
      = Except.ok [] :=
  c6_zero_keypoints_empty_collection 300 (fun _ => some ⟨10, 10⟩)
    (fun _ => ([] : List Unit)) (fun _ => ([] : Vec)) "query.png" ⟨10, 10⟩
    rfl (by decide) (fun _ => rfl)

/-- Counterexample to C7 as stated: with the catalog files a.npy, bad.npy,
c.npy where reading bad.npy fails, match yields only the pair for a.npy and
then stops with the error; in particular the later entry c.npy is never
emitted, so the failing entry is not skipped and the sequence does not
continue. -/
theorem c7_read_error_not_skipped :
    Matcher.matchAll (1 : ℚ) (fun _ _ => 0) loadBad []
        ["a.npy", "bad.npy", "c.npy"]
      = ([("a.npy", (0 : ℚ))], some "CatalogIOError") ∧
    "c.npy" ∉ (Matcher.matchAll (1 : ℚ) (fun _ _ => 0) loadBad []
        ["a.npy", "bad.npy", "c.npy"]).1.map Prod.fst :=
  ⟨rfl, by decide⟩

/-- C7 amended: an error reading an individual persisted catalog entry
aborts the lazy sequence at that entry: the pairs for the entries scored
before it are yielded, the read error propagates, and no later entry is
scored. -/
theorem c7_read_error_aborts_sequence {α : Type} [LinearOrderedField α]
    (t : α) (dist : Vec → Vec → α)
    (load : String → Except String (List Vec)) (q : List Vec)
    (pre post : List String) (f e : String)
    (hpre : ∀ g ∈ pre, (splitext g).2 = ".npy" →
        ∃ D s, load g = Except.ok D ∧
          Matcher._match t dist (Matcher._getKnn q) D = Except.ok s)
    (hf : (splitext f).2 = ".npy") (he : load f = Except.error e) :
    (Matcher.matchAll t dist load q (pre ++ f :: post)).2 = some e ∧
    (Matcher.matchAll t dist load q (pre ++ f :: post)).1.map Prod.fst
      = pre.filter (fun g => (splitext g).2 == ".npy") := by
  unfold Matcher.matchAll
  induction pre with
  | nil =>
    simp only [List.nil_append, Matcher.matchGo, if_pos hf, he]
    constructor <;> trivial
  | cons g pre ih =>
    by_cases hg : (splitext g).2 = ".npy"
    · obtain ⟨D, s, hl, hm⟩ := hpre g (List.mem_cons_self _ _) hg
      have ih' := ih (fun g2 hg2 => hpre g2 (List.mem_cons_of_mem _ hg2))
      simp only [List.cons_append, Matcher.matchGo, if_pos hg, hl, hm,
        List.map_cons, List.append_eq, ih'.1, ih'.2]
      refine ⟨trivial, ?_⟩
      simp [List.filter_cons, beq_iff_eq, hg]
    · have ih' := ih (fun g2 hg2 => hpre g2 (List.mem_cons_of_mem _ hg2))
      simp only [List.cons_append, Matcher.matchGo, if_neg hg, List.append_eq,
        ih'.1, ih'.2]
      refine ⟨trivial, ?_⟩
      simp [List.filter_cons, beq_iff_eq, hg]

/-- Concrete instance of c7_read_error_aborts_sequence. -/
theorem c7_read_error_aborts_sequence_witness :
    (Matcher.matchAll (1 : ℚ) (fun _ _ => 0) loadBad []
        (["a.npy", "x.txt"] ++ "bad.npy" :: ["c.npy"])).2
      = some "CatalogIOError" ∧
    (Matcher.matchAll (1 : ℚ) (fun _ _ => 0) loadBad []
        (["a.npy", "x.txt"] ++ "bad.npy" :: ["c.npy"])).1.map Prod.fst
      = ["a.npy", "x.txt"].filter (fun g => (splitext g).2 == ".npy") :=
  c7_read_error_aborts_sequence (1 : ℚ) (fun _ _ => 0) loadBad []
    ["a.npy", "x.txt"] ["c.npy"] "bad.npy" "CatalogIOError"
    (by
      intro g hg hnpy
      rcases List.mem_cons.mp hg with h | h
      · rw [h]
        exact ⟨[], 0, rfl, rfl⟩
      · rw [List.mem_singleton.mp h] at hnpy
        exact absurd hnpy (by decide))
    (by decide) rfl
